import Mathlib

/-!
Verification of the BioFetch job orchestration and download engine
against its design specification.

Part 1 embeds the client-side code present in the repository
(the React dashboard in App.js): the file-size formatter
`formatFileSize` and the batch-input line splitting performed by
`handleBatchDownload`.

Part 2 models the backend engine (validator, batch submission, job
state machine, scheduler admission gate, retry policy, stats
aggregator).  The backend server source is not part of the checked-in
sources; those definitions are modelled from the specification text
and are marked as such in their doc comments.
-/

namespace BioFetch

/-! ### Part 1: client code (App.js) -/

/-- The unit-label array of `formatFileSize`:
`const sizes = ['B', 'KB', 'MB', 'GB']`. -/
def sizes : List String := ["B", "KB", "MB", "GB"]

/-- Result of rendering a file size in the dashboard.  `na` is the
string `N/A`; `sized b i u` stands for the template string produced for
a truthy byte count `b`, where `i` is the computed unit index
`Math.floor(Math.log(bytes) / Math.log(1024))` and `u = sizes[i]`
(`none` when the index falls outside the 4-element array, which
JavaScript renders as the text `undefined`).  The numeric part
`(bytes / Math.pow(1024, i)).toFixed(1)` is floating-point decimal
formatting; it is determined by `b` and `i`, which the display keeps,
and is not otherwise modelled. -/
inductive FileSizeDisplay where
  | na : FileSizeDisplay
  | sized (bytes : Nat) (unitIndex : Nat) (unit : Option String) : FileSizeDisplay
  deriving DecidableEq, Repr

/-- Embedding of `formatFileSize` (App.js):
```
const formatFileSize = (bytes) => {
  if (!bytes) return 'N/A';
  const sizes = ['B', 'KB', 'MB', 'GB'];
  const i = Math.floor(Math.log(bytes) / Math.log(1024));
  return ...toFixed(1)} ${sizes[i]}...;
};
```
The argument is `none` for a `null`/absent `file_size` and `some b` for
a numeric one; `!bytes` is true exactly for `none` and `some 0`.  For
natural `b ≥ 1` the real-valued `Math.floor(Math.log b / Math.log 1024)`
equals `Nat.log 1024 b`. -/
def formatFileSize (bytes : Option Nat) : FileSizeDisplay :=
  match bytes with
  | none => .na
  | some b =>
    if b = 0 then .na
    else .sized b (Nat.log 1024 b) (sizes.get? (Nat.log 1024 b))

/-- Embedding of the JavaScript `String.prototype.trim`: remove
leading and trailing whitespace. -/
def jsTrim (s : String) : String :=
  ⟨((s.data.dropWhile Char.isWhitespace).reverse.dropWhile Char.isWhitespace).reverse⟩

/-- Splitting a character sequence at every newline, keeping empty
segments, with `cur` the reversed current segment: the semantics of the
JavaScript `split('\n')`. -/
def splitLinesAux : List Char → List Char → List (List Char)
  | cur, [] => [cur.reverse]
  | cur, c :: rest =>
    if c = '\n' then cur.reverse :: splitLinesAux [] rest
    else splitLinesAux (c :: cur) rest

/-- Embedding of the JavaScript `split('\n')` on a string. -/
def jsSplitLines (s : String) : List String :=
  (splitLinesAux [] s.data).map (fun l => ⟨l⟩)

/-- Embedding of the accession-list preprocessing in
`handleBatchDownload` (App.js):
```
const accession_ids = batchForm.accession_ids
  .split('\n').map(id => id.trim()).filter(id => id.length > 0);
```
-/
def parseBatchAccessions (input : String) : List String :=
  ((jsSplitLines input).map jsTrim).filter (fun id => id.length > 0)

/-- Claim C9: `formatFileSize` returns `N/A` for every falsy argument,
so a genuine file size of 0 bytes is displayed as `N/A`, exactly like a
`null`/absent size, and not as a sized display of 0 bytes. -/
theorem formatFileSize_zero_is_na :
    formatFileSize (some 0) = FileSizeDisplay.na ∧
    formatFileSize none = FileSizeDisplay.na ∧
    formatFileSize (some 0) = formatFileSize none ∧
    ∀ i u, formatFileSize (some 0) ≠ FileSizeDisplay.sized 0 i u := by
  refine ⟨rfl, rfl, rfl, ?_⟩
  intro i u h
  simp [formatFileSize] at h

/-- Claim C10: for every byte count of at least 1024^4 the computed
unit index is 4 or more, which indexes past the end of the 4-element
unit array, so the unit part of the rendered string is the
out-of-bounds value (`undefined`) rather than a valid unit label. -/
theorem formatFileSize_unit_out_of_bounds (b : Nat) (h : 1024 ^ 4 ≤ b) :
    4 ≤ Nat.log 1024 b ∧
    sizes.get? (Nat.log 1024 b) = none ∧
    formatFileSize (some b) =
      FileSizeDisplay.sized b (Nat.log 1024 b) none := by
  have hb0 : b ≠ 0 := by positivity
  have h4 : 4 ≤ Nat.log 1024 b :=
    (Nat.pow_le_iff_le_log (by norm_num) hb0).mp h
  have hnone : sizes.get? (Nat.log 1024 b) = none := by
    rw [List.get?_eq_none]
    simpa [sizes] using h4
  refine ⟨h4, hnone, ?_⟩
  simp only [formatFileSize]
  rw [if_neg hb0, hnone]

/-- Witness for C10 at the concrete input `b = 1024 ^ 4`. -/
theorem formatFileSize_unit_out_of_bounds_witness :
    4 ≤ Nat.log 1024 (1024 ^ 4) ∧
    sizes.get? (Nat.log 1024 (1024 ^ 4)) = none ∧
    formatFileSize (some (1024 ^ 4)) =
      FileSizeDisplay.sized (1024 ^ 4) (Nat.log 1024 (1024 ^ 4)) none :=
  formatFileSize_unit_out_of_bounds (1024 ^ 4) (le_refl _)

/-! ### Part 2: the job engine, modelled from the specification -/

/-- Job lifecycle states (spec section 3). -/
inductive JobStatus where
  | queued : JobStatus
  | downloading : JobStatus
  | completed : JobStatus
  | failed : JobStatus
  deriving DecidableEq, Repr

/-- `completed` and `failed` are the terminal states. -/
def JobStatus.isTerminal : JobStatus → Bool
  | .completed => true
  | .failed => true
  | _ => false

/-- The Job record (spec section 3, data model). `progress` is the
fraction in `[0, 1]`, kept exact as a rational. -/
structure Job where
  id : String
  accession_id : String
  database : String
  status : JobStatus
  progress : ℚ
  file_size : Option Nat
  download_url : String
  error_message : String
  created_at : Nat
  updated_at : Nat
  deriving DecidableEq, Repr

/-- Per-database validation rules (spec section 9: a declarative table
from database id to the set of accepted accession-id prefixes, empty
meaning no constraint). -/
structure DatabaseConfig where
  name : String
  validation_prefixes : List String
  deriving DecidableEq, Repr

/-- The Source Adapter Registry restricted to what validation needs:
an association from database id to its configuration. -/
abbrev Registry := List (String × DatabaseConfig)

/-- Outcome of accession validation. -/
inductive ValidationResult where
  | ok : ValidationResult
  | invalid (reason : String) : ValidationResult
  deriving DecidableEq, Repr

/-- Modelled from the spec: the Accession Validator of section 4.1
(the backend server source is not among the checked-in files).  When
`validate_format` is false only existence of `database` in the registry
is checked; when true the accession is additionally checked against the
configured prefix set, an empty prefix set accepting any non-empty
string. -/
def validate (reg : Registry) (database accession_id : String)
    (validate_format : Bool) : ValidationResult :=
  match reg.lookup database with
  | none => .invalid ("Database " ++ database ++ " not found in registry")
  | some cfg =>
    if validate_format then
      if cfg.validation_prefixes.isEmpty then
        if accession_id.length > 0 then .ok
        else .invalid "Empty accession id"
      else if cfg.validation_prefixes.any
          (fun p => List.isPrefixOf p.data accession_id.data) then .ok
      else .invalid ("Accession id does not match any accepted format for " ++ database)
    else .ok

/-- A registry used by the concrete witnesses below: `genbank` has no
prefix constraint, `sra` accepts `SRR`/`ERR`/`DRR`. -/
def sampleRegistry : Registry :=
  [("genbank", ⟨"GenBank", []⟩), ("sra", ⟨"SRA", ["SRR", "ERR", "DRR"]⟩)]

/-- Claim C4: with `validate_format` off, validation checks only that
the database is registered (the result does not depend on the
accession); with it on, an empty prefix set accepts exactly the
non-empty accession strings, and a non-empty prefix set accepts exactly
the accessions carrying one of its prefixes. -/
theorem validate_registry_and_format (reg : Registry) (db acc : String) :
    (∀ acc', validate reg db acc false = validate reg db acc' false) ∧
    (validate reg db acc false = .ok ↔ (reg.lookup db).isSome = true) ∧
    (∀ cfg, reg.lookup db = some cfg → cfg.validation_prefixes = [] →
      (validate reg db acc true = .ok ↔ acc.length ≠ 0)) ∧
    (∀ cfg, reg.lookup db = some cfg → cfg.validation_prefixes ≠ [] →
      (validate reg db acc true = .ok ↔
        cfg.validation_prefixes.any
          (fun p => List.isPrefixOf p.data acc.data) = true)) := by
  refine ⟨?_, ?_, ?_, ?_⟩
  · intro acc'
    unfold validate
    cases reg.lookup db <;> simp
  · unfold validate
    cases reg.lookup db <;> simp
  · intro cfg hcfg hpre
    unfold validate
    rw [hcfg]
    simp [hpre, Nat.pos_iff_ne_zero]
  · intro cfg hcfg hpre
    unfold validate
    rw [hcfg]
    simp only [if_true, List.isEmpty_iff, hpre, if_false]
    by_cases h : cfg.validation_prefixes.any
        (fun p => List.isPrefixOf p.data acc.data) = true <;>
      simp [h]

/-- Witness for C4 on the sample registry: `genbank` (no prefix
constraint) accepts the non-empty accession `NC_045512`; `sra` accepts
`SRR000001`; an unregistered database is rejected whatever the flag. -/
theorem validate_registry_and_format_witness :
    sampleRegistry.lookup "genbank" = some ⟨"GenBank", []⟩ ∧
    (validate sampleRegistry "genbank" "NC_045512" true = .ok ↔
      ("NC_045512" : String).length ≠ 0) ∧
    sampleRegistry.lookup "sra" = some ⟨"SRA", ["SRR", "ERR", "DRR"]⟩ ∧
    (validate sampleRegistry "sra" "SRR000001" true = .ok ↔
      (["SRR", "ERR", "DRR"] : List String).any
        (fun p => List.isPrefixOf p.data ("SRR000001" : String).data) = true) ∧
    (validate sampleRegistry "unknown_db" "X" false = .ok ↔
      (sampleRegistry.lookup "unknown_db").isSome = true) :=
  ⟨rfl,
   (validate_registry_and_format sampleRegistry "genbank" "NC_045512").2.2.1
     ⟨"GenBank", []⟩ rfl rfl,
   rfl,
   (validate_registry_and_format sampleRegistry "sra" "SRR000001").2.2.2
     ⟨"SRA", ["SRR", "ERR", "DRR"]⟩ rfl (by simp),
   (validate_registry_and_format sampleRegistry "unknown_db" "X").2.1⟩

/-- Modelled from the spec: a freshly created Job (status `queued`,
progress 0, no artifact fields, timestamps set at creation). -/
def mkQueuedJob (jobId database accession_id : String) (now : Nat) : Job :=
  { id := jobId, accession_id := accession_id, database := database,
    status := .queued, progress := 0, file_size := none,
    download_url := "", error_message := "",
    created_at := now, updated_at := now }

/-- Modelled from the spec: a Job created pre-failed for an accession
that failed submission-time validation (section 6: each such accession
yields an immediately failed job rather than aborting the batch). -/
def mkFailedJob (jobId database accession_id msg : String) (now : Nat) : Job :=
  { id := jobId, accession_id := accession_id, database := database,
    status := .failed, progress := 0, file_size := none,
    download_url := "", error_message := msg,
    created_at := now, updated_at := now }

/-- Deterministic job id for the unit at position `i` of a batch (the
spec only requires ids to be unique and assigned at creation). -/
def jobIdFor (i : Nat) : String := "job-" ++ toString i

/-- Modelled from the spec: creation of the one Job of a single batch
unit — a queued Job when validation passes, a pre-failed Job carrying
`validation_error: <reason>` (section 4.4 step 1) when it does not. -/
def submitUnit (reg : Registry) (database : String) (validate_format : Bool)
    (now : Nat) (i : Nat) (accession_id : String) : Job :=
  match validate reg database accession_id validate_format with
  | .ok => mkQueuedJob (jobIdFor i) database accession_id now
  | .invalid r =>
      mkFailedJob (jobIdFor i) database accession_id ("validation_error: " ++ r) now

/-- One Job per accession of the batch, numbered from `i`. -/
def submitUnits (reg : Registry) (database : String) (validate_format : Bool)
    (now : Nat) : Nat → List String → List Job
  | _, [] => []
  | i, acc :: rest =>
      submitUnit reg database validate_format now i acc ::
        submitUnits reg database validate_format now (i + 1) rest

/-- Modelled from the spec: `submit_batch` (section 6) — creates one
Job per submitted accession, valid or not, never aborting the batch. -/
def submit_batch (reg : Registry) (database : String)
    (accession_ids : List String) (validate_format : Bool) (now : Nat) : List Job :=
  submitUnits reg database validate_format now 0 accession_ids

theorem submitUnits_length (reg : Registry) (db : String) (vf : Bool) (now : Nat) :
    ∀ (i : Nat) (accs : List String),
      (submitUnits reg db vf now i accs).length = accs.length := by
  intro i accs
  induction accs generalizing i with
  | nil => rfl
  | cons a rest ih => simp [submitUnits, ih]

theorem submitUnits_get? (reg : Registry) (db : String) (vf : Bool) (now : Nat) :
    ∀ (accs : List String) (i k : Nat) (acc : String),
      accs.get? k = some acc →
      (submitUnits reg db vf now i accs).get? k =
        some (submitUnit reg db vf now (i + k) acc) := by
  intro accs
  induction accs with
  | nil => intro i k acc h; cases h
  | cons a rest ih =>
    intro i k acc h
    cases k with
    | zero =>
      have ha : a = acc := by
        have : some a = some acc := h
        exact Option.some.inj this
      subst ha
      simp [submitUnits, Nat.add_zero]
    | succ k =>
      have h2 := ih (i + 1) k acc h
      have hik : i + 1 + k = i + (k + 1) := by omega
      rw [hik] at h2
      exact h2

theorem validation_error_message_ne (r : String) :
    "validation_error: " ++ r ≠ "" := by
  intro h
  have hlen := congrArg String.length h
  simp [String.length_append] at hlen
  exact absurd hlen.1 (by decide)

/-- Claim C2: a batch of `N` accessions yields exactly `N` Jobs, one
per accession in order; an invalid accession yields an immediately
failed Job with a non-empty error message instead of aborting the
batch, and a valid one yields a queued Job.  In the client, the
submitted sequence is exactly the non-empty trimmed lines of the
textarea input, in order. -/
theorem submit_batch_one_job_per_accession (reg : Registry) (db : String)
    (vf : Bool) (now : Nat) (accession_ids : List String) (input : String) :
    (submit_batch reg db accession_ids vf now).length = accession_ids.length ∧
    (∀ i acc, accession_ids.get? i = some acc →
      ((submit_batch reg db accession_ids vf now).get? i).map Job.accession_id
          = some acc ∧
      (∀ r, validate reg db acc vf = .invalid r →
        ((submit_batch reg db accession_ids vf now).get? i).map Job.status
            = some JobStatus.failed ∧
        ((submit_batch reg db accession_ids vf now).get? i).map Job.error_message
            ≠ some "") ∧
      (validate reg db acc vf = .ok →
        ((submit_batch reg db accession_ids vf now).get? i).map Job.status
            = some JobStatus.queued)) ∧
    parseBatchAccessions input =
      ((jsSplitLines input).map jsTrim).filter (fun s => s.length > 0) := by
  refine ⟨submitUnits_length reg db vf now 0 accession_ids, ?_, rfl⟩
  intro i acc h
  have hg := submitUnits_get? reg db vf now accession_ids 0 i acc h
  rw [Nat.zero_add] at hg
  unfold submit_batch
  rw [hg]
  refine ⟨?_, ?_, ?_⟩
  · simp [submitUnit]
    cases hv : validate reg db acc vf <;> simp [mkQueuedJob, mkFailedJob]
  · intro r hv
    simp [submitUnit, hv, mkFailedJob]
    exact validation_error_message_ne r
  · intro hv
    simp [submitUnit, hv, mkQueuedJob]

/-- Witness for C2: a batch of two accessions against `sra`, the first
valid and the second invalid; both Jobs exist, the first queued and the
second pre-failed, and the client splitting of a textarea input with a
blank and a padded line yields exactly the two accessions. -/
theorem submit_batch_one_job_per_accession_witness :
    (submit_batch sampleRegistry "sra" ["SRR000001", "bad"] true 0).length = 2 ∧
    ((submit_batch sampleRegistry "sra" ["SRR000001", "bad"] true 0).get? 0).map Job.status
        = some JobStatus.queued ∧
    ((submit_batch sampleRegistry "sra" ["SRR000001", "bad"] true 0).get? 1).map Job.status
        = some JobStatus.failed ∧
    ((submit_batch sampleRegistry "sra" ["SRR000001", "bad"] true 0).get? 1).map Job.error_message
        ≠ some "" ∧
    parseBatchAccessions "SRR000001\n\n bad \n" = ["SRR000001", "bad"] := by
  have h := submit_batch_one_job_per_accession sampleRegistry "sra" true 0
    ["SRR000001", "bad"] "SRR000001\n\n bad \n"
  have h0 := (h.2.1 0 "SRR000001" rfl).2.2 (by decide)
  have h1 := (h.2.1 1 "bad" rfl).2.1
    "Accession id does not match any accepted format for sra" (by decide)
  exact ⟨h.1, h0, h1.1, h1.2, by decide⟩

/-- Aggregate download statistics. -/
structure Stats where
  total_downloads : Nat
  completed_downloads : Nat
  success_rate : ℚ
  deriving DecidableEq, Repr

/-- One step of the single-pass counter accumulation of `get_stats`:
the accumulator is (total, completed, failed). -/
def statsStep (acc : Nat × Nat × Nat) (j : Job) : Nat × Nat × Nat :=
  match j.status with
  | .completed => (acc.1 + 1, acc.2.1 + 1, acc.2.2)
  | .failed => (acc.1 + 1, acc.2.1, acc.2.2 + 1)
  | _ => (acc.1 + 1, acc.2.1, acc.2.2)

/-- Modelled from the spec: the Stats Aggregator (section 4.5), a
read-only projection over the Job Store computed in one pass, with the
divide-by-zero guard on the success rate. -/
def get_stats (jobs : List Job) : Stats :=
  { total_downloads := (jobs.foldl statsStep (0, 0, 0)).1
    completed_downloads := (jobs.foldl statsStep (0, 0, 0)).2.1
    success_rate :=
      if (jobs.foldl statsStep (0, 0, 0)).2.1 + (jobs.foldl statsStep (0, 0, 0)).2.2 = 0
      then 0
      else ((jobs.foldl statsStep (0, 0, 0)).2.1 : ℚ) /
        (((jobs.foldl statsStep (0, 0, 0)).2.1 : ℚ)
          + ((jobs.foldl statsStep (0, 0, 0)).2.2 : ℚ)) }

theorem statsStep_foldl (jobs : List Job) :
    ∀ a b c : Nat,
      jobs.foldl statsStep (a, b, c) =
        (a + jobs.length,
         b + jobs.countP (fun j => j.status == JobStatus.completed),
         c + jobs.countP (fun j => j.status == JobStatus.failed)) := by
  induction jobs with
  | nil => intro a b c; simp
  | cons j rest ih =>
    intro a b c
    rw [List.foldl_cons]
    cases hs : j.status <;>
      simp [statsStep, hs, ih, List.countP_cons, beq_iff_eq] <;> omega

/-- Claim C3: `get_stats` returns the count of all Jobs as
`total_downloads`, the count of completed Jobs as
`completed_downloads`, and `completed / (completed + failed)` as
`success_rate`, defined as 0 when `completed + failed = 0`. -/
theorem get_stats_projection (jobs : List Job) :
    (get_stats jobs).total_downloads = jobs.length ∧
    (get_stats jobs).completed_downloads
        = jobs.countP (fun j => j.status == JobStatus.completed) ∧
    (get_stats jobs).success_rate =
      (if jobs.countP (fun j => j.status == JobStatus.completed)
          + jobs.countP (fun j => j.status == JobStatus.failed) = 0 then 0
       else (jobs.countP (fun j => j.status == JobStatus.completed) : ℚ) /
         ((jobs.countP (fun j => j.status == JobStatus.completed) : ℚ)
           + (jobs.countP (fun j => j.status == JobStatus.failed) : ℚ))) := by
  have h := statsStep_foldl jobs 0 0 0
  refine ⟨?_, ?_, ?_⟩ <;>
    simp only [get_stats] <;> rw [h] <;> simp only [Nat.zero_add]

/-- Modelled from the spec: the per-unit lifecycle of a Job under the
Download Executor (section 4.4) — `queued -(dispatch)-> downloading`,
progress writes while downloading are non-decreasing and bounded by 1
(section 3 invariants, section 4.4 step 3, retry attempts included),
`downloading -(success)-> completed` with `progress = 1`, `file_size`
and a non-empty `download_url`, and `queued/downloading -(failure)->
failed` with a non-empty `error_message` and progress 0 (section 3:
progress is 0 at `failed`).  Terminal states admit no transition. -/
inductive JobStep : Job → Job → Prop where
  | dispatch (j : Job) (t : Nat) (h : j.status = .queued) :
      JobStep j { j with status := .downloading, updated_at := t }
  | progressWrite (j : Job) (p : ℚ) (fs : Option Nat) (t : Nat)
      (h : j.status = .downloading) (hmono : j.progress ≤ p) (hle : p ≤ 1) :
      JobStep j { j with progress := p, file_size := fs, updated_at := t }
  | complete (j : Job) (url : String) (size : Nat) (t : Nat)
      (h : j.status = .downloading) (hurl : url ≠ "") :
      JobStep j { j with status := .completed, progress := 1,
                         download_url := url, file_size := some size,
                         updated_at := t }
  | fail (j : Job) (msg : String) (t : Nat)
      (h : j.status = .queued ∨ j.status = .downloading) (hmsg : msg ≠ "") :
      JobStep j { j with status := .failed, progress := 0,
                         error_message := msg, updated_at := t }

/-- The initial Jobs the engine creates: freshly queued Jobs and
pre-failed Jobs with a non-empty validation message. -/
def JobInit (j : Job) : Prop :=
  (∃ jobId db acc t, j = mkQueuedJob jobId db acc t) ∨
  (∃ jobId db acc msg t, msg ≠ "" ∧ j = mkFailedJob jobId db acc msg t)

/-- The terminal-field discipline: a completed Job carries an artifact
location and no error, a failed Job carries an error and no artifact
location, and a non-terminal Job carries neither. -/
def TerminalFieldsOk (j : Job) : Prop :=
  (j.status = .completed → j.download_url ≠ "" ∧ j.error_message = "") ∧
  (j.status = .failed → j.error_message ≠ "" ∧ j.download_url = "") ∧
  (j.status = .queued ∨ j.status = .downloading →
    j.download_url = "" ∧ j.error_message = "")

theorem jobInit_terminalFieldsOk (j : Job) (h : JobInit j) :
    TerminalFieldsOk j := by
  rcases h with ⟨jobId, db, acc, t, rfl⟩ | ⟨jobId, db, acc, msg, t, hmsg, rfl⟩ <;>
    refine ⟨?_, ?_, ?_⟩ <;> intro h <;>
    simp [mkQueuedJob, mkFailedJob] at h ⊢ ; simp_all

theorem jobStep_terminalFieldsOk (j j' : Job) (hstep : JobStep j j')
    (hok : TerminalFieldsOk j) : TerminalFieldsOk j' := by
  obtain ⟨hc, hf, hq⟩ := hok
  cases hstep with
  | dispatch t h =>
    refine ⟨?_, ?_, ?_⟩
    · intro hx; cases hx
    · intro hx; cases hx
    · intro _; exact hq (Or.inl h)
  | progressWrite p fs t h hmono hle =>
    exact ⟨hc, hf, hq⟩
  | complete url size t h hurl =>
    refine ⟨?_, ?_, ?_⟩
    · intro _; exact ⟨hurl, (hq (Or.inr h)).2⟩
    · intro hx; cases hx
    · intro hx; rcases hx with hx | hx <;> cases hx
  | fail msg t h hmsg =>
    refine ⟨?_, ?_, ?_⟩
    · intro hx; cases hx
    · intro _; exact ⟨hmsg, (hq h).1⟩
    · intro hx; rcases hx with hx | hx <;> cases hx

theorem jobReachable_terminalFieldsOk (j j' : Job) (hinit : JobInit j)
    (hstar : Relation.ReflTransGen JobStep j j') : TerminalFieldsOk j' := by
  induction hstar with
  | refl => exact jobInit_terminalFieldsOk j hinit
  | tail h1 hstep ih => exact jobStep_terminalFieldsOk _ _ hstep ih

/-- Claim C1: on every Job reachable from creation, `completed` implies
a non-empty `download_url` and empty `error_message`, `failed` implies
the reverse, and the two terminal field assignments never hold
together. -/
theorem job_terminal_fields_exclusive (j j' : Job) (hinit : JobInit j)
    (hstar : Relation.ReflTransGen JobStep j j') :
    (j'.status = .completed → j'.download_url ≠ "" ∧ j'.error_message = "") ∧
    (j'.status = .failed → j'.error_message ≠ "" ∧ j'.download_url = "") ∧
    ¬(j'.download_url ≠ "" ∧ j'.error_message ≠ "") := by
  obtain ⟨hc, hf, hq⟩ := jobReachable_terminalFieldsOk j j' hinit hstar
  refine ⟨hc, hf, ?_⟩
  rintro ⟨hurl, herr⟩
  cases hs : j'.status with
  | queued => exact hurl (hq (by rw [hs]; exact Or.inl rfl)).1
  | downloading => exact hurl (hq (by rw [hs]; exact Or.inr rfl)).1
  | completed => exact herr (hc hs).2
  | failed => exact hurl (hf hs).2

/-- A concrete lifecycle used by the witnesses: a queued Job for
`NC_045512`, dispatched, progressed to one half, then completed. -/
def traceJob0 : Job := mkQueuedJob "job-0" "genbank" "NC_045512" 0

def traceJob1 : Job := { traceJob0 with status := .downloading, updated_at := 1 }

def traceJob2 : Job :=
  { traceJob1 with progress := 1/2, file_size := some 51200, updated_at := 2 }

def traceJob3 : Job :=
  { traceJob2 with status := .completed, progress := 1,
                   download_url := "/api/download/job-0",
                   file_size := some 102400, updated_at := 3 }

theorem traceSteps01 : JobStep traceJob0 traceJob1 :=
  JobStep.dispatch traceJob0 1 rfl

theorem traceSteps12 : JobStep traceJob1 traceJob2 :=
  JobStep.progressWrite traceJob1 (1/2) (some 51200) 2 rfl
    (by norm_num [traceJob1, traceJob0, mkQueuedJob]) (by norm_num)

theorem traceSteps23 : JobStep traceJob2 traceJob3 :=
  JobStep.complete traceJob2 "/api/download/job-0" 102400 3 rfl (by decide)

/-- Witness for C1 on the concrete completed Job at the end of the
sample lifecycle. -/
theorem job_terminal_fields_exclusive_witness :
    (traceJob3.status = .completed →
      traceJob3.download_url ≠ "" ∧ traceJob3.error_message = "") ∧
    (traceJob3.status = .failed →
      traceJob3.error_message ≠ "" ∧ traceJob3.download_url = "") ∧
    ¬(traceJob3.download_url ≠ "" ∧ traceJob3.error_message ≠ "") :=
  job_terminal_fields_exclusive traceJob0 traceJob3
    (Or.inl ⟨"job-0", "genbank", "NC_045512", 0, rfl⟩)
    (Relation.ReflTransGen.tail
      (Relation.ReflTransGen.tail
        (Relation.ReflTransGen.single traceSteps01) traceSteps12)
      traceSteps23)

/-- The source of any lifecycle transition is non-terminal: terminal
Jobs admit no further transition. -/
theorem jobStep_src_not_terminal (j j' : Job) (hstep : JobStep j j') :
    j.status.isTerminal = false := by
  cases hstep with
  | dispatch t h => rw [h]; rfl
  | progressWrite p fs t h hmono hle => rw [h]; rfl
  | complete url size t h hurl => rw [h]; rfl
  | fail msg t h hmsg => rcases h with h | h <;> rw [h] <;> rfl

theorem jobStep_progress_mono (j j' : Job) (hstep : JobStep j j')
    (hnt : j'.status.isTerminal = false) : j.progress ≤ j'.progress := by
  cases hstep with
  | dispatch t h => exact le_refl _
  | progressWrite p fs t h hmono hle => exact hmono
  | complete url size t h hurl => cases hnt
  | fail msg t h hmsg => cases hnt

/-- Claim C5: across any run of lifecycle writes that has not yet
reached a terminal state, the progress value never decreases (retry
attempts write through the same non-decreasing progress transitions). -/
theorem job_progress_nondecreasing (j j' : Job)
    (hstar : Relation.ReflTransGen JobStep j j')
    (hnt : j'.status.isTerminal = false) : j.progress ≤ j'.progress := by
  revert hnt
  induction hstar with
  | refl => intro _; exact le_refl _
  | tail h1 hstep ih =>
    intro hnt
    exact le_trans (ih (jobStep_src_not_terminal _ _ hstep))
      (jobStep_progress_mono _ _ hstep hnt)

/-- Witness for C5 on the sample lifecycle up to the downloading state
with progress one half. -/
theorem job_progress_nondecreasing_witness :
    traceJob0.progress ≤ traceJob2.progress :=
  job_progress_nondecreasing traceJob0 traceJob2
    (Relation.ReflTransGen.tail
      (Relation.ReflTransGen.single traceSteps01) traceSteps12)
    rfl

/-- The Job Store as queried by the engine: an association from job id
to Job record, most recent first. -/
abbrev JobStore := List (String × Job)

/-- Lookup of a Job by id (spec section 4.2, `get`). -/
def get_job (store : JobStore) (jobId : String) : Option Job :=
  store.lookup jobId

/-- Modelled from the spec: the Job Store `update` operation (section
4.2) — a per-field write that must not permit writes to a Job already
in a terminal state; of the two documented options we adopt the no-op
choice. -/
def updateJob (store : JobStore) (jobId : String) (f : Job → Job) : JobStore :=
  store.map (fun entry =>
    (entry.1,
     if entry.1 == jobId && !entry.2.status.isTerminal
     then f entry.2 else entry.2))

theorem get_job_updateJob_of_terminal (jobId target : String) (f : Job → Job) :
    ∀ (store : JobStore) (j : Job), get_job store jobId = some j →
      j.status.isTerminal = true →
      get_job (updateJob store target f) jobId = some j := by
  intro store
  induction store with
  | nil => intro j h _; cases h
  | cons e rest ih =>
    intro j h hterm
    obtain ⟨k, v⟩ := e
    by_cases hk : jobId == k
    · have hv : v = j := by
        have : some v = some j := by
          simpa [get_job, List.lookup, hk] using h
        exact Option.some.inj this
      subst hv
      simp [get_job, updateJob, List.lookup, hk, hterm]
    · have hrest : get_job rest jobId = some j := by
        simpa [get_job, List.lookup, hk] using h
      have := ih j hrest hterm
      simpa [get_job, updateJob, List.lookup, hk] using this

/-- Claim C8: once a Job is terminal no operation mutates it — the
lifecycle relation admits no transition out of it, a store update
targeting any id leaves it untouched, and therefore `get_job` returns
identical data after any sequence of update operations. -/
theorem terminal_job_immutable (store : JobStore) (jobId target : String)
    (j : Job) (f : Job → Job)
    (hget : get_job store jobId = some j)
    (hterm : j.status.isTerminal = true) :
    (∀ j', ¬ JobStep j j') ∧
    get_job (updateJob store target f) jobId = some j ∧
    ∀ us : List (String × (Job → Job)),
      get_job (us.foldl (fun s u => updateJob s u.1 u.2) store) jobId = some j := by
  refine ⟨?_, get_job_updateJob_of_terminal jobId target f store j hget hterm, ?_⟩
  · intro j' hstep
    have := jobStep_src_not_terminal j j' hstep
    rw [hterm] at this
    cases this
  · intro us
    induction us generalizing store with
    | nil => exact hget
    | cons u rest ih =>
      exact ih (updateJob store u.1 u.2)
        (get_job_updateJob_of_terminal jobId u.1 u.2 store j hget hterm)

/-- Witness for C8: a one-entry store holding a pre-failed Job; an
update that would bump its progress leaves it unchanged, under a single
update and under a two-update sequence. -/
theorem terminal_job_immutable_witness :
    get_job
      (updateJob [("job-0", mkFailedJob "job-0" "genbank" "X" "validation_error: bad" 0)]
        "job-0" (fun j => { j with progress := 1 }))
      "job-0" = some (mkFailedJob "job-0" "genbank" "X" "validation_error: bad" 0) ∧
    get_job
      ([("job-0", fun j => { j with progress := 1 }),
        ("job-0", fun j => { j with status := JobStatus.completed })].foldl
        (fun s u => updateJob s u.1 u.2)
        [("job-0", mkFailedJob "job-0" "genbank" "X" "validation_error: bad" 0)])
      "job-0" = some (mkFailedJob "job-0" "genbank" "X" "validation_error: bad" 0) :=
  ⟨(terminal_job_immutable
      [("job-0", mkFailedJob "job-0" "genbank" "X" "validation_error: bad" 0)]
      "job-0" "job-0" (mkFailedJob "job-0" "genbank" "X" "validation_error: bad" 0)
      (fun j => { j with progress := 1 }) rfl rfl).2.1,
   (terminal_job_immutable
      [("job-0", mkFailedJob "job-0" "genbank" "X" "validation_error: bad" 0)]
      "job-0" "job-0" (mkFailedJob "job-0" "genbank" "X" "validation_error: bad" 0)
      (fun j => { j with progress := 1 }) rfl rfl).2.2
     [("job-0", fun j => { j with progress := 1 }),
      ("job-0", fun j => { j with status := JobStatus.completed })]⟩

/-- State of the worker pool: the number of free admission slots of
the counting semaphore, and the status of every job-unit submitted so
far. -/
structure PoolState where
  free_slots : Nat
  jobs : List JobStatus
  deriving DecidableEq, Repr

/-- Number of units currently in the `downloading` state. -/
def downloadingCount (l : List JobStatus) : Nat :=
  l.countP (fun s => s == JobStatus.downloading)

/-- Modelled from the spec: the Scheduler/Worker Pool admission scheme
(section 4.3) — a counting semaphore sized `C`; a unit's status becomes
`downloading` only by acquiring a free slot, and the slot is released
when the unit reaches a terminal state, success or failure.
Submission adds a unit either queued or pre-failed (section 6). -/
inductive PoolStep : PoolState → PoolState → Prop where
  | submit (s : PoolState) (st : JobStatus)
      (h : st = .queued ∨ st = .failed) :
      PoolStep s ⟨s.free_slots, s.jobs ++ [st]⟩
  | acquire (s : PoolState) (i : Nat)
      (h : s.jobs.get? i = some .queued) (hs : s.free_slots ≠ 0) :
      PoolStep s ⟨s.free_slots - 1, s.jobs.set i .downloading⟩
  | finish (s : PoolState) (i : Nat) (st : JobStatus)
      (h : s.jobs.get? i = some .downloading)
      (ht : st = .completed ∨ st = .failed) :
      PoolStep s ⟨s.free_slots + 1, s.jobs.set i st⟩

theorem countP_set_of_get? {α : Type} (p : α → Bool) :
    ∀ (l : List α) (i : Nat) (a b : α), l.get? i = some a →
      (l.set i b).countP p + (if p a then 1 else 0) =
        l.countP p + (if p b then 1 else 0) := by
  intro l
  induction l with
  | nil => intro i a b h; cases h
  | cons x rest ih =>
    intro i a b h
    cases i with
    | zero =>
      have hx : x = a := Option.some.inj h
      subst hx
      simp only [List.set, List.countP_cons]
      omega
    | succ i =>
      have h2 := ih i a b h
      simp only [List.set, List.countP_cons]
      omega

theorem countP_set_incr {α : Type} (p : α → Bool) (l : List α) (i : Nat)
    (a b : α) (hget : l.get? i = some a) (hpa : p a = false) (hpb : p b = true) :
    (l.set i b).countP p = l.countP p + 1 := by
  have hc := countP_set_of_get? p l i a b hget
  simp [hpa, hpb] at hc
  omega

theorem countP_set_decr {α : Type} (p : α → Bool) (l : List α) (i : Nat)
    (a b : α) (hget : l.get? i = some a) (hpa : p a = true) (hpb : p b = false) :
    (l.set i b).countP p + 1 = l.countP p := by
  have hc := countP_set_of_get? p l i a b hget
  simp [hpa, hpb] at hc
  omega

/-- The semaphore invariant: units downloading plus free slots equal
the configured capacity. -/
def PoolInv (C : Nat) (s : PoolState) : Prop :=
  downloadingCount s.jobs + s.free_slots = C

theorem poolStep_inv (C : Nat) (s s' : PoolState) (hstep : PoolStep s s')
    (hinv : PoolInv C s) : PoolInv C s' := by
  unfold PoolInv downloadingCount at hinv ⊢
  cases hstep with
  | submit st h =>
    have hst : (st == JobStatus.downloading) = false := by
      rcases h with h | h <;> subst h <;> rfl
    simp [List.countP_append, List.countP_cons, hst]
    omega
  | acquire i h hs =>
    have hc := countP_set_incr (fun st => st == JobStatus.downloading)
      s.jobs i JobStatus.queued JobStatus.downloading h rfl rfl
    dsimp only
    omega
  | finish i st h ht =>
    have hst : (st == JobStatus.downloading) = false := by
      rcases ht with hx | hx <;> subst hx <;> rfl
    have hc := countP_set_decr (fun x => x == JobStatus.downloading)
      s.jobs i JobStatus.downloading st h rfl hst
    dsimp only
    omega

/-- Claim C6: starting from an idle pool with capacity `C`, every
reachable state keeps the semaphore accounting exact, so at most `C`
units are in the `downloading` state simultaneously, for any submission
pattern. -/
theorem pool_downloading_bounded (C : Nat) (s : PoolState)
    (hreach : Relation.ReflTransGen PoolStep ⟨C, []⟩ s) :
    downloadingCount s.jobs + s.free_slots = C ∧
    downloadingCount s.jobs ≤ C := by
  have hinv : PoolInv C s := by
    induction hreach with
    | refl => simp [PoolInv, downloadingCount]
    | tail h1 hstep ih => exact poolStep_inv C _ _ hstep ih
  exact ⟨hinv, by unfold PoolInv at hinv; omega⟩

/-- Witness for C6: with capacity 2, submit one unit and admit it; the
reached state has one downloading unit, one free slot. -/
theorem pool_downloading_bounded_witness :
    downloadingCount (PoolState.mk 1 [JobStatus.downloading]).jobs +
      (PoolState.mk 1 [JobStatus.downloading]).free_slots = 2 ∧
    downloadingCount (PoolState.mk 1 [JobStatus.downloading]).jobs ≤ 2 :=
  pool_downloading_bounded 2 ⟨1, [JobStatus.downloading]⟩
    (Relation.ReflTransGen.tail
      (Relation.ReflTransGen.single
        (PoolStep.submit ⟨2, []⟩ JobStatus.queued (Or.inl rfl)))
      (PoolStep.acquire ⟨2, [JobStatus.queued]⟩ 0 rfl (by decide)))

/-- Outcome of one fetch attempt by a Source Adapter (spec section 6). -/
inductive FetchOutcome where
  | success (bytes : Nat) : FetchOutcome
  | transientError (msg : String) : FetchOutcome
  | permanentError (msg : String) : FetchOutcome
  deriving DecidableEq, Repr

/-- Final outcome of executing one download unit. -/
inductive ExecResult where
  | completedOk (bytes : Nat) : ExecResult
  | failedWith (msg : String) : ExecResult
  deriving DecidableEq, Repr

/-- Record of one execution run: the final result, how many fetch
attempts were made, and the backoff delays waited between attempts. -/
structure RetryRun where
  result : ExecResult
  attempts : Nat
  backoff_delays : List Nat
  deriving DecidableEq, Repr

/-- Modelled from the spec: the Retry Policy of section 4.4.
`adapter k` is the outcome of the k-th fetch attempt (0-based) and
`base` the initial backoff delay; a transient failure is retried after
an exponentially growing delay while attempts remain, a success or a
non-transient failure stops immediately, and exhausting the bound ends
the unit failed with a message indicating retries were exhausted. -/
def runAttempts (adapter : Nat → FetchOutcome) (base : Nat) :
    Nat → Nat → RetryRun
  | 0, _ => ⟨.failedWith "Download failed: retries exhausted", 0, []⟩
  | fuel + 1, k =>
    match adapter k with
    | .success b => ⟨.completedOk b, 1, []⟩
    | .permanentError m => ⟨.failedWith m, 1, []⟩
    | .transientError m =>
      match fuel with
      | 0 => ⟨.failedWith ("Download failed: retries exhausted (" ++ m ++ ")"), 1, []⟩
      | fuel' + 1 =>
        let rest := runAttempts adapter base (fuel' + 1) (k + 1)
        ⟨rest.result, rest.attempts + 1, base * 2 ^ k :: rest.backoff_delays⟩

/-- Execution of one unit with retry bound `R`. -/
def runWithRetry (adapter : Nat → FetchOutcome) (base R : Nat) : RetryRun :=
  runAttempts adapter base R 0

theorem runAttempts_le (adapter : Nat → FetchOutcome) (base : Nat) :
    ∀ (fuel k : Nat), (runAttempts adapter base fuel k).attempts ≤ fuel := by
  intro fuel
  induction fuel with
  | zero => intro k; exact Nat.le_refl 0
  | succ fuel ih =>
    intro k
    unfold runAttempts
    cases adapter k with
    | success b => exact Nat.succ_le_succ (Nat.zero_le _)
    | permanentError m => exact Nat.succ_le_succ (Nat.zero_le _)
    | transientError m =>
      cases fuel with
      | zero => exact Nat.le_refl 1
      | succ fuel' =>
        simp only []
        exact Nat.succ_le_succ (ih (k + 1))

/-- Claim C7: a transient failure on every attempt with bound `R = 3`
produces exactly 3 fetch attempts, two exponentially growing backoff
delays, and a failed result whose message indicates retries were
exhausted; a non-transient failure on the first attempt stops after
exactly 1 attempt with the original message and no retry; and the
attempt count never exceeds the bound. -/
theorem retry_policy (adapterT adapterP : Nat → FetchOutcome)
    (m mp : String) (base R : Nat)
    (hT : ∀ k, adapterT k = .transientError m)
    (hP : adapterP 0 = .permanentError mp)
    (hR : R ≠ 0) :
    runWithRetry adapterT base 3 =
      ⟨.failedWith ("Download failed: retries exhausted (" ++ m ++ ")"), 3,
        [base * 2 ^ 0, base * 2 ^ 1]⟩ ∧
    runWithRetry adapterP base R = ⟨.failedWith mp, 1, []⟩ ∧
    (runWithRetry adapterT base R).attempts ≤ R := by
  refine ⟨?_, ?_, runAttempts_le adapterT base R 0⟩
  · simp [runWithRetry, runAttempts, hT 0, hT 1, hT 2]
  · cases R with
    | zero => exact absurd rfl hR
    | succ R => simp [runWithRetry, runAttempts, hP]

/-- Witness for C7: a concrete always-transient adapter with `R = 3`
and base delay 1 makes exactly 3 attempts and ends failed with the
retries-exhausted message; a concrete not-found adapter fails after
exactly 1 attempt. -/
theorem retry_policy_witness :
    runWithRetry (fun _ => FetchOutcome.transientError "connection timeout") 1 3 =
      ⟨ExecResult.failedWith
          "Download failed: retries exhausted (connection timeout)", 3,
        [1 * 2 ^ 0, 1 * 2 ^ 1]⟩ ∧
    runWithRetry (fun _ => FetchOutcome.permanentError "accession not found") 1 3 =
      ⟨ExecResult.failedWith "accession not found", 1, []⟩ ∧
    (runWithRetry (fun _ => FetchOutcome.transientError "connection timeout") 1 3).attempts
      ≤ 3 :=
  retry_policy
    (fun _ => FetchOutcome.transientError "connection timeout")
    (fun _ => FetchOutcome.permanentError "accession not found")
    "connection timeout" "accession not found" 1 3
    (fun _ => rfl) rfl (by decide)

end BioFetch

